import Mathlib

/-!
Shallow embedding of the `DeFiAgentFHE` Solidity contract
(src/frontend/web/src/app.tsx, lines 868-1131) and proofs about it.

Modelling conventions:
* Addresses, `uint256` values and `bytes` words are `Nat`.
* `euint32` ciphertext handles are modelled by `Ciph`: either the
  uninitialized handle (`Ciph.uninit`, the zero handle that
  `FHE.isInitialized` rejects) or a handle carrying a 32-bit plaintext
  value (`Ciph.val`).  Homomorphic `add`/`sub` act on the carried values
  modulo 2^32, matching `euint32` wrap-around arithmetic.
* `keccak256(abi.encode(cts, address(this)))` is modelled by the
  injective constructor `B32.keccakCts`; the all-zero `bytes32` that a
  never-written Solidity storage slot holds is `B32.zero`, distinct from
  every `keccakCts` image (collision resistance).
* Every Solidity mapping is a total function with the Solidity default
  value (zero struct / `false` / `0`) at unwritten keys.
* Each external function takes `msg.sender` (and `block.timestamp`
  where the source reads it) explicitly and returns
  `Except Err (ContractState × List Event)`; `Except.error` is a
  revert, which on the EVM rolls back every write of the call.
* `FHE.requestDecryption` returns oracle-issued request ids; the oracle
  hands out fresh ids, modelled by the counter `fheNextRequestId`.
* `FHE.checkSignatures` is the trusted oracle's attestation predicate;
  it is passed to `myCallback` as an explicit function argument `cs`.
-/

namespace DeFiAgentFHE

abbrev Address := Nat

/-- The `euint32` modulus. -/
def M32 : Nat := 2 ^ 32

/-- An `euint32` ciphertext handle: uninitialized, or carrying a
32-bit plaintext value. -/
inductive Ciph where
  | uninit : Ciph
  | val : Nat → Ciph
deriving DecidableEq

/-- Plaintext carried by a handle (the zero handle decrypts to 0). -/
def Ciph.toNat : Ciph → Nat
  | .uninit => 0
  | .val n => n

namespace FHE

/-- `FHE.isInitialized`: true iff the handle is not the zero handle. -/
def isInitialized : Ciph → Bool
  | .uninit => false
  | .val _ => true

/-- `FHE.asEuint32`: a trivial encryption of a constant. -/
def asEuint32 (n : Nat) : Ciph := .val (n % M32)

/-- Homomorphic `euint32` addition (wrap-around mod 2^32). -/
def add (a b : Ciph) : Ciph := .val ((a.toNat + b.toNat) % M32)

/-- Homomorphic `euint32` subtraction (wrap-around mod 2^32). -/
def sub (a b : Ciph) : Ciph :=
  .val ((a.toNat % M32 + (M32 - b.toNat % M32)) % M32)

end FHE

/-- A `bytes32` value: either the all-zero default of an unwritten
storage slot, or the keccak hash of `abi.encode(cts, thisAddress)`. -/
inductive B32 where
  | zero : B32
  | keccakCts : List Ciph → Address → B32
deriving DecidableEq

/-- `keccak256(abi.encode(cts, address(this)))`. -/
def hashCts (cts : List Ciph) (self : Address) : B32 := .keccakCts cts self

/-- struct DecryptionContext. -/
structure DecryptionContext where
  batchId : Nat
  stateHash : B32
  processed : Bool
deriving DecidableEq

/-- The zero struct a Solidity mapping yields at an unwritten key. -/
def DecryptionContext.def0 : DecryptionContext := ⟨0, .zero, false⟩

/-- struct UserPortfolioState (six encrypted fields). -/
structure UserPortfolioState where
  totalValueEncrypted : Ciph
  riskPreferenceEncrypted : Ciph
  targetAllocation1Encrypted : Ciph
  targetAllocation2Encrypted : Ciph
  currentAllocation1Encrypted : Ciph
  currentAllocation2Encrypted : Ciph
deriving DecidableEq

/-- The zero struct for `userStates` at an unwritten key. -/
def UserPortfolioState.def0 : UserPortfolioState :=
  ⟨.uninit, .uninit, .uninit, .uninit, .uninit, .uninit⟩

/-- struct BatchAggregatedResults (four encrypted accumulators). -/
structure BatchAggregatedResults where
  totalValueSumEncrypted : Ciph
  riskPreferenceSumEncrypted : Ciph
  rebalanceAmount1Encrypted : Ciph
  rebalanceAmount2Encrypted : Ciph
deriving DecidableEq

/-- The zero struct for `batchResults` at an unwritten key. -/
def BatchAggregatedResults.def0 : BatchAggregatedResults :=
  ⟨.uninit, .uninit, .uninit, .uninit⟩

/-- The contract's events, with their payloads. -/
inductive Event where
  | OwnershipTransferred (previousOwner newOwner : Address)
  | ProviderAdded (provider : Address)
  | ProviderRemoved (provider : Address)
  | ContractPaused (account : Address)
  | ContractUnpaused (account : Address)
  | CooldownSecondsSet (oldCooldownSeconds newCooldownSeconds : Nat)
  | BatchOpened (batchId : Nat)
  | BatchClosed (batchId : Nat)
  | PortfolioDataSubmitted (user : Address) (batchId : Nat)
  | DecryptionRequested (requestId batchId : Nat)
  | DecryptionCompleted (requestId batchId totalValueSum riskPreferenceSum
      rebalanceAmount1 rebalanceAmount2 : Nat)
deriving DecidableEq

/-- The contract's custom errors. -/
inductive Err where
  | NotOwner
  | NotProvider
  | Paused
  | CooldownActive
  | BatchClosedOrInvalid
  | ReplayAttempt
  | StateMismatch
  | InvalidProof
  | NotInitialized
deriving DecidableEq

/-- The contract's storage, plus the oracle's request-id counter
(`fheNextRequestId`) and the immutable `address(this)` (`selfAddr`). -/
structure ContractState where
  selfAddr : Address
  owner : Address
  providers : Address → Bool
  paused : Bool
  cooldownSeconds : Nat
  lastSubmissionTime : Address → Nat
  lastDecryptionRequestTime : Address → Nat
  currentBatchId : Nat
  batchClosed : Nat → Bool
  decryptionContexts : Nat → DecryptionContext
  userStates : Address → UserPortfolioState
  batchResults : Nat → BatchAggregatedResults
  fheNextRequestId : Nat

/-- The constructor: deployer becomes owner and provider, batch 1 is
current and open, cooldown defaults to 60 seconds. -/
def constructorState (deployer self : Address) : ContractState where
  selfAddr := self
  owner := deployer
  providers := Function.update (fun _ => false) deployer true
  paused := false
  cooldownSeconds := 60
  lastSubmissionTime := fun _ => 0
  lastDecryptionRequestTime := fun _ => 0
  currentBatchId := 1
  batchClosed := fun _ => false
  decryptionContexts := fun _ => DecryptionContext.def0
  userStates := fun _ => UserPortfolioState.def0
  batchResults := fun _ => BatchAggregatedResults.def0
  fheNextRequestId := 1

/-- `transferOwnership(newOwner)`. -/
def transferOwnership (sender newOwner : Address) (s : ContractState) :
    Except Err (ContractState × List Event) :=
  if sender ≠ s.owner then .error .NotOwner
  else .ok ({ s with owner := newOwner },
    [.OwnershipTransferred s.owner newOwner])

/-- `addProvider(provider)`. -/
def addProvider (sender provider : Address) (s : ContractState) :
    Except Err (ContractState × List Event) :=
  if sender ≠ s.owner then .error .NotOwner
  else .ok ({ s with providers := Function.update s.providers provider true },
    [.ProviderAdded provider])

/-- `removeProvider(provider)`. -/
def removeProvider (sender provider : Address) (s : ContractState) :
    Except Err (ContractState × List Event) :=
  if sender ≠ s.owner then .error .NotOwner
  else .ok ({ s with providers := Function.update s.providers provider false },
    [.ProviderRemoved provider])

/-- `setPaused(_paused)`. -/
def setPaused (sender : Address) (p : Bool) (s : ContractState) :
    Except Err (ContractState × List Event) :=
  if sender ≠ s.owner then .error .NotOwner
  else if p then .ok ({ s with paused := true }, [.ContractPaused sender])
  else .ok ({ s with paused := false }, [.ContractUnpaused sender])

/-- `setCooldownSeconds(newCooldownSeconds)`. -/
def setCooldownSeconds (sender : Address) (n : Nat) (s : ContractState) :
    Except Err (ContractState × List Event) :=
  if sender ≠ s.owner then .error .NotOwner
  else .ok ({ s with cooldownSeconds := n },
    [.CooldownSecondsSet s.cooldownSeconds n])

/-- `openNewBatch()`. -/
def openNewBatch (sender : Address) (s : ContractState) :
    Except Err (ContractState × List Event) :=
  if sender ≠ s.owner then .error .NotOwner
  else if s.paused then .error .Paused
  else .ok ({ s with currentBatchId := s.currentBatchId + 1 },
    [.BatchOpened (s.currentBatchId + 1)])

/-- `closeCurrentBatch()`. -/
def closeCurrentBatch (sender : Address) (s : ContractState) :
    Except Err (ContractState × List Event) :=
  if sender ≠ s.owner then .error .NotOwner
  else if s.paused then .error .Paused
  else if s.currentBatchId = 0 ∨ s.batchClosed s.currentBatchId then
    .error .BatchClosedOrInvalid
  else .ok ({ s with
      batchClosed := Function.update s.batchClosed s.currentBatchId true },
    [.BatchClosed s.currentBatchId])

/-- The six `euint32` arguments of `submitPortfolioData`. -/
structure SubmitArgs where
  totalValueEncrypted : Ciph
  riskPreferenceEncrypted : Ciph
  targetAllocation1Encrypted : Ciph
  targetAllocation2Encrypted : Ciph
  currentAllocation1Encrypted : Ciph
  currentAllocation2Encrypted : Ciph
deriving DecidableEq

/-- Lazy initialization of a batch's accumulators: if the value-sum
handle is uninitialized, seed all four accumulators with encrypted
zero (app.tsx lines 1030-1035). -/
def aggInit (r : BatchAggregatedResults) : BatchAggregatedResults :=
  if FHE.isInitialized r.totalValueSumEncrypted then r
  else ⟨FHE.asEuint32 0, FHE.asEuint32 0, FHE.asEuint32 0, FHE.asEuint32 0⟩

/-- The homomorphic accumulation of one submission
(app.tsx lines 1038-1046). -/
def aggApply (r : BatchAggregatedResults) (a : SubmitArgs) :
    BatchAggregatedResults :=
  let diff1 := FHE.sub a.targetAllocation1Encrypted a.currentAllocation1Encrypted
  let diff2 := FHE.sub a.targetAllocation2Encrypted a.currentAllocation2Encrypted
  { totalValueSumEncrypted :=
      FHE.add r.totalValueSumEncrypted a.totalValueEncrypted
    riskPreferenceSumEncrypted :=
      FHE.add r.riskPreferenceSumEncrypted a.riskPreferenceEncrypted
    rebalanceAmount1Encrypted := FHE.add r.rebalanceAmount1Encrypted diff1
    rebalanceAmount2Encrypted := FHE.add r.rebalanceAmount2Encrypted diff2 }

/-- Full effect of one accepted submission on a batch's accumulators:
lazy init, then homomorphic accumulation. -/
def aggStep (r : BatchAggregatedResults) (a : SubmitArgs) :
    BatchAggregatedResults :=
  aggApply (aggInit r) a

/-- `submitPortfolioData(...)`, with `msg.sender` and
`block.timestamp` explicit. -/
def submitPortfolioData (sender : Address) (now : Nat) (a : SubmitArgs)
    (s : ContractState) : Except Err (ContractState × List Event) :=
  if s.providers sender = false then .error .NotProvider
  else if s.paused then .error .Paused
  else if now < s.lastSubmissionTime sender + s.cooldownSeconds then
    .error .CooldownActive
  else if s.batchClosed s.currentBatchId then .error .BatchClosedOrInvalid
  else
    .ok ({ s with
        lastSubmissionTime := Function.update s.lastSubmissionTime sender now
        userStates := Function.update s.userStates sender
          ⟨a.totalValueEncrypted, a.riskPreferenceEncrypted,
           a.targetAllocation1Encrypted, a.targetAllocation2Encrypted,
           a.currentAllocation1Encrypted, a.currentAllocation2Encrypted⟩
        batchResults := Function.update s.batchResults s.currentBatchId
          (aggStep (s.batchResults s.currentBatchId) a) },
      [.PortfolioDataSubmitted sender s.currentBatchId])

/-- The ordered list of the four aggregate ciphertext handles
(app.tsx lines 1063-1067 and 1091-1095). -/
def ctsOf (r : BatchAggregatedResults) : List Ciph :=
  [r.totalValueSumEncrypted, r.riskPreferenceSumEncrypted,
   r.rebalanceAmount1Encrypted, r.rebalanceAmount2Encrypted]

/-- `requestBatchDecryption(batchId)`. -/
def requestBatchDecryption (sender : Address) (now : Nat) (batchId : Nat)
    (s : ContractState) : Except Err (ContractState × List Event) :=
  if sender ≠ s.owner then .error .NotOwner
  else if s.paused then .error .Paused
  else if s.batchClosed batchId = false then .error .BatchClosedOrInvalid
  else if now < s.lastDecryptionRequestTime sender + s.cooldownSeconds then
    .error .CooldownActive
  else if FHE.isInitialized
      (s.batchResults batchId).totalValueSumEncrypted = false then
    .error .NotInitialized
  else
    .ok ({ s with
        lastDecryptionRequestTime :=
          Function.update s.lastDecryptionRequestTime sender now
        fheNextRequestId := s.fheNextRequestId + 1
        decryptionContexts := Function.update s.decryptionContexts
          s.fheNextRequestId
          ⟨batchId, hashCts (ctsOf (s.batchResults batchId)) s.selfAddr,
           false⟩ },
      [.DecryptionRequested s.fheNextRequestId batchId])

/-- The four 32-byte cleartext words of the oracle callback payload. -/
structure Cleartexts where
  w0 : Nat
  w1 : Nat
  w2 : Nat
  w3 : Nat
deriving DecidableEq

/-- `myCallback(requestId, cleartexts, proof)`.  `cs` is the substrate's
`FHE.checkSignatures` predicate; `sender` is `msg.sender`, which the
source never reads — the function has no modifier and no caller check. -/
def myCallback (cs : Nat → Cleartexts → Nat → Bool) (sender : Address)
    (requestId : Nat) (cleartexts : Cleartexts) (proof : Nat)
    (s : ContractState) : Except Err (ContractState × List Event) :=
  if (s.decryptionContexts requestId).processed then .error .ReplayAttempt
  else if FHE.isInitialized
      (s.batchResults
        (s.decryptionContexts requestId).batchId).totalValueSumEncrypted
      = false then
    .error .NotInitialized
  else if hashCts
      (ctsOf (s.batchResults (s.decryptionContexts requestId).batchId))
      s.selfAddr ≠ (s.decryptionContexts requestId).stateHash then
    .error .StateMismatch
  else if cs requestId cleartexts proof = false then .error .InvalidProof
  else
    .ok ({ s with
        decryptionContexts := Function.update s.decryptionContexts requestId
          { s.decryptionContexts requestId with processed := true } },
      [.DecryptionCompleted requestId
        (s.decryptionContexts requestId).batchId
        cleartexts.w0 cleartexts.w1 cleartexts.w2 cleartexts.w3])

/-- The state a call leaves behind: the new state on success, the old
state on revert (EVM rollback). -/
def resultState (s : ContractState) :
    Except Err (ContractState × List Event) → ContractState
  | .ok (s', _) => s'
  | .error _ => s

/-- One successful state-mutating call of any of the contract's
external functions. -/
inductive Step : ContractState → ContractState → Prop where
  | ofTransferOwnership {sender newOwner s s' ev} :
      transferOwnership sender newOwner s = .ok (s', ev) → Step s s'
  | ofAddProvider {sender provider s s' ev} :
      addProvider sender provider s = .ok (s', ev) → Step s s'
  | ofRemoveProvider {sender provider s s' ev} :
      removeProvider sender provider s = .ok (s', ev) → Step s s'
  | ofSetPaused {sender p s s' ev} :
      setPaused sender p s = .ok (s', ev) → Step s s'
  | ofSetCooldownSeconds {sender n s s' ev} :
      setCooldownSeconds sender n s = .ok (s', ev) → Step s s'
  | ofOpenNewBatch {sender s s' ev} :
      openNewBatch sender s = .ok (s', ev) → Step s s'
  | ofCloseCurrentBatch {sender s s' ev} :
      closeCurrentBatch sender s = .ok (s', ev) → Step s s'
  | ofSubmitPortfolioData {sender now a s s' ev} :
      submitPortfolioData sender now a s = .ok (s', ev) → Step s s'
  | ofRequestBatchDecryption {sender now batchId s s' ev} :
      requestBatchDecryption sender now batchId s = .ok (s', ev) → Step s s'
  | ofMyCallback {cs sender requestId cleartexts proof s s' ev} :
      myCallback cs sender requestId cleartexts proof s = .ok (s', ev) →
      Step s s'

/-- Zero or more successful calls. -/
def Reachable : ContractState → ContractState → Prop :=
  Relation.ReflTransGen Step

/-- Every oracle-issued request id stored in a context is below the
oracle's next fresh id (the oracle never reissues a request id). -/
def CtxInv (s : ContractState) : Prop :=
  ∀ j, s.decryptionContexts j ≠ DecryptionContext.def0 →
    j < s.fheNextRequestId

/-! Concrete fixtures used to evaluate the definitions. -/

/-- A `checkSignatures` predicate that accepts every payload. -/
def csAll : Nat → Cleartexts → Nat → Bool := fun _ _ _ => true

/-- A `checkSignatures` predicate that rejects every payload. -/
def csNone : Nat → Cleartexts → Nat → Bool := fun _ _ _ => false

/-- A concrete callback payload. -/
def ctFix : Cleartexts := ⟨100, 3, 10, 5⟩

/-- A concrete submission. -/
def aFix : SubmitArgs :=
  ⟨.val 100, .val 3, .val 50, .val 50, .val 40, .val 60⟩

/-- A second concrete submission. -/
def bFix : SubmitArgs :=
  ⟨.val 200, .val 5, .val 30, .val 70, .val 35, .val 65⟩

/-- A third concrete submission. -/
def cFix : SubmitArgs :=
  ⟨.val 50, .val 1, .val 60, .val 40, .val 50, .val 50⟩

/-- Concrete aggregates for batch 1. -/
def rFix : BatchAggregatedResults := ⟨.val 10, .val 20, .val 30, .val 40⟩

/-- Tampered aggregates (value-sum differs from `rFix`). -/
def rFix2 : BatchAggregatedResults := ⟨.val 11, .val 20, .val 30, .val 40⟩

/-- A pending decryption context bound to `rFix` of instance 7. -/
def ctxFix : DecryptionContext := ⟨1, hashCts (ctsOf rFix) 7, false⟩

/-- Fixture: batch 1 closed with aggregates `rFix`, one pending
decryption request with id 5, next fresh id 6. -/
def sPending : ContractState where
  selfAddr := 7
  owner := 1
  providers := fun a => decide (a = 1)
  paused := false
  cooldownSeconds := 60
  lastSubmissionTime := fun _ => 0
  lastDecryptionRequestTime := fun _ => 0
  currentBatchId := 1
  batchClosed := fun b => decide (b = 1)
  decryptionContexts := fun i =>
    if i = 5 then ctxFix else DecryptionContext.def0
  userStates := fun _ => UserPortfolioState.def0
  batchResults := fun b =>
    if b = 1 then rFix else BatchAggregatedResults.def0
  fheNextRequestId := 6

/-- `sPending` after the callback for request 5 succeeded. -/
def sPendingDone : ContractState :=
  { sPending with
    decryptionContexts := Function.update sPending.decryptionContexts 5
      { ctxFix with processed := true } }

/-- `sPending` with the aggregates of batch 1 replaced behind the
pending request's back. -/
def sTampered : ContractState :=
  { sPending with
    batchResults := fun b =>
      if b = 1 then rFix2 else BatchAggregatedResults.def0 }

/-- `sPending` after `requestBatchDecryption(1)` by the owner at
time 100: a second context, id 6, for the same closed batch. -/
def sRequested : ContractState :=
  { sPending with
    lastDecryptionRequestTime :=
      Function.update sPending.lastDecryptionRequestTime 1 100
    fheNextRequestId := 7
    decryptionContexts := Function.update sPending.decryptionContexts 6
      ⟨1, hashCts (ctsOf rFix) 7, false⟩ }

/-- Fixture: a fresh deployment by address 1 at instance address 7
(batch 1 open, no submissions yet). -/
def sOpen : ContractState := constructorState 1 7

/-- `sOpen` after the owner closed batch 1. -/
def sClosed : ContractState :=
  { sOpen with batchClosed := Function.update sOpen.batchClosed 1 true }

/-- `sOpen` after address 2 was added as a provider. -/
def sProv : ContractState :=
  { sOpen with providers := Function.update sOpen.providers 2 true }

/-- `sProv` after adding address 2 again. -/
def sProv2 : ContractState :=
  { sProv with providers := Function.update sProv.providers 2 true }

theorem transferOwnership_ok {sender newOwner : Address}
    {s s' : ContractState} {ev : List Event}
    (h : transferOwnership sender newOwner s = .ok (s', ev)) :
    sender = s.owner ∧ s' = { s with owner := newOwner } ∧
    ev = [.OwnershipTransferred s.owner newOwner] := by
  unfold transferOwnership at h
  split at h <;> simp_all

theorem addProvider_ok {sender provider : Address}
    {s s' : ContractState} {ev : List Event}
    (h : addProvider sender provider s = .ok (s', ev)) :
    sender = s.owner ∧
    s' = { s with providers := Function.update s.providers provider true } ∧
    ev = [.ProviderAdded provider] := by
  unfold addProvider at h
  split at h <;> simp_all

theorem removeProvider_ok {sender provider : Address}
    {s s' : ContractState} {ev : List Event}
    (h : removeProvider sender provider s = .ok (s', ev)) :
    sender = s.owner ∧
    s' = { s with providers := Function.update s.providers provider false } ∧
    ev = [.ProviderRemoved provider] := by
  unfold removeProvider at h
  split at h <;> simp_all

theorem setPaused_ok {sender : Address} {p : Bool}
    {s s' : ContractState} {ev : List Event}
    (h : setPaused sender p s = .ok (s', ev)) :
    sender = s.owner ∧ s' = { s with paused := p } ∧
    ev = if p then [.ContractPaused sender] else [.ContractUnpaused sender] := by
  unfold setPaused at h
  repeat' split at h
  all_goals simp_all

theorem setCooldownSeconds_ok {sender : Address} {n : Nat}
    {s s' : ContractState} {ev : List Event}
    (h : setCooldownSeconds sender n s = .ok (s', ev)) :
    sender = s.owner ∧ s' = { s with cooldownSeconds := n } ∧
    ev = [.CooldownSecondsSet s.cooldownSeconds n] := by
  unfold setCooldownSeconds at h
  split at h <;> simp_all

theorem openNewBatch_ok {sender : Address}
    {s s' : ContractState} {ev : List Event}
    (h : openNewBatch sender s = .ok (s', ev)) :
    sender = s.owner ∧ s.paused = false ∧
    s' = { s with currentBatchId := s.currentBatchId + 1 } ∧
    ev = [.BatchOpened (s.currentBatchId + 1)] := by
  unfold openNewBatch at h
  repeat' split at h
  all_goals simp_all

theorem closeCurrentBatch_ok {sender : Address}
    {s s' : ContractState} {ev : List Event}
    (h : closeCurrentBatch sender s = .ok (s', ev)) :
    sender = s.owner ∧ s.paused = false ∧ s.currentBatchId ≠ 0 ∧
    s.batchClosed s.currentBatchId = false ∧
    s' = { s with
      batchClosed := Function.update s.batchClosed s.currentBatchId true } ∧
    ev = [.BatchClosed s.currentBatchId] := by
  unfold closeCurrentBatch at h
  repeat' split at h
  all_goals simp_all

theorem submitPortfolioData_ok {sender : Address} {now : Nat}
    {a : SubmitArgs} {s s' : ContractState} {ev : List Event}
    (h : submitPortfolioData sender now a s = .ok (s', ev)) :
    s.providers sender = true ∧ s.paused = false ∧
    s.lastSubmissionTime sender + s.cooldownSeconds ≤ now ∧
    s.batchClosed s.currentBatchId = false ∧
    s' = { s with
        lastSubmissionTime := Function.update s.lastSubmissionTime sender now
        userStates := Function.update s.userStates sender
          ⟨a.totalValueEncrypted, a.riskPreferenceEncrypted,
           a.targetAllocation1Encrypted, a.targetAllocation2Encrypted,
           a.currentAllocation1Encrypted, a.currentAllocation2Encrypted⟩
        batchResults := Function.update s.batchResults s.currentBatchId
          (aggStep (s.batchResults s.currentBatchId) a) } ∧
    ev = [.PortfolioDataSubmitted sender s.currentBatchId] := by
  unfold submitPortfolioData at h
  repeat' split at h
  all_goals simp_all

theorem requestBatchDecryption_ok {sender : Address} {now batchId : Nat}
    {s s' : ContractState} {ev : List Event}
    (h : requestBatchDecryption sender now batchId s = .ok (s', ev)) :
    sender = s.owner ∧ s.paused = false ∧ s.batchClosed batchId = true ∧
    s.lastDecryptionRequestTime sender + s.cooldownSeconds ≤ now ∧
    FHE.isInitialized
      (s.batchResults batchId).totalValueSumEncrypted = true ∧
    s' = { s with
        lastDecryptionRequestTime :=
          Function.update s.lastDecryptionRequestTime sender now
        fheNextRequestId := s.fheNextRequestId + 1
        decryptionContexts := Function.update s.decryptionContexts
          s.fheNextRequestId
          ⟨batchId, hashCts (ctsOf (s.batchResults batchId)) s.selfAddr,
           false⟩ } ∧
    ev = [.DecryptionRequested s.fheNextRequestId batchId] := by
  unfold requestBatchDecryption at h
  repeat' split at h
  all_goals simp_all

theorem myCallback_ok {cs : Nat → Cleartexts → Nat → Bool}
    {sender : Address} {requestId : Nat} {cleartexts : Cleartexts}
    {proof : Nat} {s s' : ContractState} {ev : List Event}
    (h : myCallback cs sender requestId cleartexts proof s = .ok (s', ev)) :
    (s.decryptionContexts requestId).processed = false ∧
    FHE.isInitialized
      (s.batchResults
        (s.decryptionContexts requestId).batchId).totalValueSumEncrypted
      = true ∧
    hashCts (ctsOf (s.batchResults (s.decryptionContexts requestId).batchId))
      s.selfAddr = (s.decryptionContexts requestId).stateHash ∧
    cs requestId cleartexts proof = true ∧
    s' = { s with
        decryptionContexts := Function.update s.decryptionContexts requestId
          { s.decryptionContexts requestId with processed := true } } ∧
    ev = [.DecryptionCompleted requestId
      (s.decryptionContexts requestId).batchId
      cleartexts.w0 cleartexts.w1 cleartexts.w2 cleartexts.w3] := by
  unfold myCallback at h
  repeat' split at h
  all_goals simp_all

theorem myCallback_of_processed {cs : Nat → Cleartexts → Nat → Bool}
    {sender : Address} {requestId : Nat} {cleartexts : Cleartexts}
    {proof : Nat} {s : ContractState}
    (h : (s.decryptionContexts requestId).processed = true) :
    myCallback cs sender requestId cleartexts proof s =
      .error .ReplayAttempt := by
  unfold myCallback
  simp [h]

theorem ctx_ne_def0_of_hash {c : DecryptionContext} {cts : List Ciph}
    {self : Address} (h : hashCts cts self = c.stateHash) :
    c ≠ DecryptionContext.def0 := by
  intro he
  rw [he] at h
  simp [hashCts, DecryptionContext.def0] at h

theorem processed_ne_def0 {c : DecryptionContext}
    (h : c.processed = true) : c ≠ DecryptionContext.def0 := by
  intro he
  rw [he] at h
  simp [DecryptionContext.def0] at h

/-- One successful call keeps request-id freshness and never touches a
context whose `processed` flag is set. -/
theorem step_preserves_ctx {s s' : ContractState} (hst : Step s s')
    (hinv : CtxInv s) :
    CtxInv s' ∧ ∀ id, (s.decryptionContexts id).processed = true →
      s'.decryptionContexts id = s.decryptionContexts id := by
  cases hst with
  | ofTransferOwnership h =>
      obtain ⟨-, rfl, -⟩ := transferOwnership_ok h
      exact ⟨hinv, fun _ _ => rfl⟩
  | ofAddProvider h =>
      obtain ⟨-, rfl, -⟩ := addProvider_ok h
      exact ⟨hinv, fun _ _ => rfl⟩
  | ofRemoveProvider h =>
      obtain ⟨-, rfl, -⟩ := removeProvider_ok h
      exact ⟨hinv, fun _ _ => rfl⟩
  | ofSetPaused h =>
      obtain ⟨-, rfl, -⟩ := setPaused_ok h
      exact ⟨hinv, fun _ _ => rfl⟩
  | ofSetCooldownSeconds h =>
      obtain ⟨-, rfl, -⟩ := setCooldownSeconds_ok h
      exact ⟨hinv, fun _ _ => rfl⟩
  | ofOpenNewBatch h =>
      obtain ⟨-, -, rfl, -⟩ := openNewBatch_ok h
      exact ⟨hinv, fun _ _ => rfl⟩
  | ofCloseCurrentBatch h =>
      obtain ⟨-, -, -, -, rfl, -⟩ := closeCurrentBatch_ok h
      exact ⟨hinv, fun _ _ => rfl⟩
  | ofSubmitPortfolioData h =>
      obtain ⟨-, -, -, -, rfl, -⟩ := submitPortfolioData_ok h
      exact ⟨hinv, fun _ _ => rfl⟩
  | ofRequestBatchDecryption h =>
      obtain ⟨-, -, -, -, -, rfl, -⟩ := requestBatchDecryption_ok h
      constructor
      · intro j hj
        dsimp only at hj ⊢
        by_cases hje : j = s.fheNextRequestId
        · omega
        · simp only [Function.update_noteq hje] at hj
          have := hinv j hj
          omega
      · intro id hid
        have hne := processed_ne_def0 hid
        have hlt := hinv id hne
        have : id ≠ s.fheNextRequestId := by omega
        simp [Function.update_noteq this]
  | ofMyCallback h =>
      obtain ⟨hproc, -, hhash, -, rfl, -⟩ := myCallback_ok h
      rename_i cs sender requestId cleartexts proof ev
      constructor
      · intro j hj
        by_cases hje : j = requestId
        · subst hje
          have hne := ctx_ne_def0_of_hash hhash
          exact hinv j hne
        · simp only [Function.update_noteq hje] at hj
          exact hinv j hj
      · intro id hid
        have : id ≠ requestId := by
          intro he
          rw [he] at hid
          rw [hid] at hproc
          exact absurd hproc (by simp)
        simp [Function.update_noteq this]

/-- Freshness and processed contexts are stable along any sequence of
successful calls. -/
theorem reach_preserves_ctx {s s' : ContractState} (hr : Reachable s s')
    (hinv : CtxInv s) :
    CtxInv s' ∧ ∀ id, (s.decryptionContexts id).processed = true →
      s'.decryptionContexts id = s.decryptionContexts id := by
  induction hr with
  | refl => exact ⟨hinv, fun _ _ => rfl⟩
  | tail _ hst ih =>
      obtain ⟨hinvb, hstab⟩ := ih
      obtain ⟨hinvc, hstc⟩ := step_preserves_ctx hst hinvb
      refine ⟨hinvc, fun id hid => ?_⟩
      have hb := hstab id hid
      have : _ := hstc id (by rw [hb]; exact hid)
      rw [this, hb]

/-- One successful call never reopens a closed batch and never mutates
a closed batch's aggregates. -/
theorem step_preserves_closed {R : Nat} {s s' : ContractState}
    (hst : Step s s') (hcl : s.batchClosed R = true) :
    s'.batchClosed R = true ∧ s'.batchResults R = s.batchResults R := by
  cases hst with
  | ofTransferOwnership h =>
      obtain ⟨-, rfl, -⟩ := transferOwnership_ok h
      exact ⟨hcl, rfl⟩
  | ofAddProvider h =>
      obtain ⟨-, rfl, -⟩ := addProvider_ok h
      exact ⟨hcl, rfl⟩
  | ofRemoveProvider h =>
      obtain ⟨-, rfl, -⟩ := removeProvider_ok h
      exact ⟨hcl, rfl⟩
  | ofSetPaused h =>
      obtain ⟨-, rfl, -⟩ := setPaused_ok h
      exact ⟨hcl, rfl⟩
  | ofSetCooldownSeconds h =>
      obtain ⟨-, rfl, -⟩ := setCooldownSeconds_ok h
      exact ⟨hcl, rfl⟩
  | ofOpenNewBatch h =>
      obtain ⟨-, -, rfl, -⟩ := openNewBatch_ok h
      exact ⟨hcl, rfl⟩
  | ofCloseCurrentBatch h =>
      obtain ⟨-, -, -, -, rfl, -⟩ := closeCurrentBatch_ok h
      refine ⟨?_, rfl⟩
      by_cases hre : R = s.currentBatchId
      · subst hre; simp [Function.update_same]
      · simpa [Function.update_noteq hre] using hcl
  | ofSubmitPortfolioData h =>
      obtain ⟨-, -, -, hopen, rfl, -⟩ := submitPortfolioData_ok h
      have : R ≠ s.currentBatchId := by
        intro he; rw [he, hopen] at hcl; exact absurd hcl (by simp)
      exact ⟨hcl, by simp [Function.update_noteq this]⟩
  | ofRequestBatchDecryption h =>
      obtain ⟨-, -, -, -, -, rfl, -⟩ := requestBatchDecryption_ok h
      exact ⟨hcl, rfl⟩
  | ofMyCallback h =>
      obtain ⟨-, -, -, -, rfl, -⟩ := myCallback_ok h
      exact ⟨hcl, rfl⟩

/-- Closedness and the frozen aggregates are stable along any sequence
of successful calls. -/
theorem reach_preserves_closed {R : Nat} {s s' : ContractState}
    (hr : Reachable s s') (hcl : s.batchClosed R = true) :
    s'.batchClosed R = true ∧ s'.batchResults R = s.batchResults R := by
  induction hr with
  | refl => exact ⟨hcl, rfl⟩
  | tail _ hst ih =>
      obtain ⟨hclb, hresb⟩ := ih
      obtain ⟨hclc, hresc⟩ := step_preserves_closed hst hclb
      exact ⟨hclc, by rw [hresc, hresb]⟩

theorem FHE.add_add_right_comm (x a b : Ciph) :
    FHE.add (FHE.add x a) b = FHE.add (FHE.add x b) a := by
  simp only [FHE.add, Ciph.toNat, Nat.mod_add_mod]
  congr 1
  congr 1
  omega

theorem aggInit_aggApply (r : BatchAggregatedResults) (a : SubmitArgs) :
    aggInit (aggApply r a) = aggApply r a := by
  simp [aggInit, aggApply, FHE.isInitialized, FHE.add]

/-- Two accepted submissions fold into the accumulators in either
order with the same outcome. -/
theorem aggStep_left_comm (r : BatchAggregatedResults) (a b : SubmitArgs) :
    aggStep (aggStep r a) b = aggStep (aggStep r b) a := by
  unfold aggStep
  rw [aggInit_aggApply, aggInit_aggApply]
  simp only [aggApply, BatchAggregatedResults.mk.injEq]
  exact ⟨FHE.add_add_right_comm _ _ _, FHE.add_add_right_comm _ _ _,
    FHE.add_add_right_comm _ _ _, FHE.add_add_right_comm _ _ _⟩

/-- Folding the aggregation over a permuted submission list yields the
same accumulators. -/
theorem foldl_aggStep_perm {l₁ l₂ : List SubmitArgs} (hp : l₁.Perm l₂) :
    ∀ r : BatchAggregatedResults, l₁.foldl aggStep r = l₂.foldl aggStep r := by
  induction hp with
  | nil => intro r; rfl
  | cons x _ ih => intro r; simp only [List.foldl_cons]; exact ih _
  | swap x y l => intro r; simp only [List.foldl_cons, aggStep_left_comm]
  | trans _ _ ih₁ ih₂ => intro r; rw [ih₁ r, ih₂ r]

/-- C1: once `myCallback` has succeeded for a request id, any later
`myCallback` call with the same id fails with `ReplayAttempt`, and the
stored context is unchanged from the moment of success (in particular
`processed` flipped to `true` exactly once and is never reset), for
every state reachable by further successful calls.  `CtxInv` states
that the oracle never reissues a stored request id. -/
theorem replay_guard_consumes_request_id_once
    (cs : Nat → Cleartexts → Nat → Bool) (sender : Address) (id : Nat)
    (ct : Cleartexts) (pf : Nat) (s s₁ s₂ : ContractState)
    (ev : List Event) (hinv : CtxInv s)
    (hok : myCallback cs sender id ct pf s = .ok (s₁, ev))
    (hreach : Reachable s₁ s₂) :
    (s₁.decryptionContexts id).processed = true ∧
    s₂.decryptionContexts id = s₁.decryptionContexts id ∧
    ∀ cs' sender' ct' pf',
      myCallback cs' sender' id ct' pf' s₂ = .error .ReplayAttempt := by
  obtain ⟨hproc, hinit, hhash, hsig, hs₁, hev⟩ := myCallback_ok hok
  have hproc₁ : (s₁.decryptionContexts id).processed = true := by
    rw [hs₁]; simp [Function.update_same]
  have hinv₁ : CtxInv s₁ := (step_preserves_ctx (Step.ofMyCallback hok) hinv).1
  obtain ⟨hinv₂, hstab⟩ := reach_preserves_ctx hreach hinv₁
  have hctx := hstab id hproc₁
  refine ⟨hproc₁, hctx, fun cs' sender' ct' pf' => ?_⟩
  exact myCallback_of_processed (by rw [hctx]; exact hproc₁)

theorem replay_guard_consumes_request_id_once_witness :
    myCallback csAll 9 5 ctFix 0 sPending =
      .ok (sPendingDone, [.DecryptionCompleted 5 1 100 3 10 5]) ∧
    myCallback csAll 9 5 ctFix 0 sPendingDone =
      .error .ReplayAttempt := by
  have hinv : CtxInv sPending := by
    intro j hj
    by_cases hj5 : j = 5
    · subst hj5; norm_num [sPending]
    · exfalso
      apply hj
      simp [sPending, hj5]
  have hok : myCallback csAll 9 5 ctFix 0 sPending =
      .ok (sPendingDone, [.DecryptionCompleted 5 1 100 3 10 5]) := rfl
  exact ⟨hok,
    (replay_guard_consumes_request_id_once csAll 9 5 ctFix 0 sPending
      sPendingDone sPendingDone _ hinv hok .refl).2.2 csAll 9 ctFix 0⟩

/-- C2: `myCallback` publishes cleartexts only when the content hash
recomputed from the target batch's current four aggregate ciphertexts
and the instance address equals the stored hash; on a mismatch it
fails with `StateMismatch` (publishing nothing); and
`requestBatchDecryption` stores exactly that hash at request time. -/
theorem state_binding_check
    (cs : Nat → Cleartexts → Nat → Bool) (sender : Address) (id : Nat)
    (ct : Cleartexts) (pf : Nat) (s : ContractState) :
    (∀ s' ev, myCallback cs sender id ct pf s = .ok (s', ev) →
      hashCts (ctsOf (s.batchResults (s.decryptionContexts id).batchId))
        s.selfAddr = (s.decryptionContexts id).stateHash) ∧
    ((s.decryptionContexts id).processed = false →
      FHE.isInitialized (s.batchResults
        (s.decryptionContexts id).batchId).totalValueSumEncrypted = true →
      hashCts (ctsOf (s.batchResults (s.decryptionContexts id).batchId))
        s.selfAddr ≠ (s.decryptionContexts id).stateHash →
      myCallback cs sender id ct pf s = .error .StateMismatch) ∧
    (∀ now bid s' ev,
      requestBatchDecryption sender now bid s = .ok (s', ev) →
      s'.decryptionContexts s.fheNextRequestId =
        ⟨bid, hashCts (ctsOf (s.batchResults bid)) s.selfAddr, false⟩) := by
  refine ⟨fun s' ev hok => (myCallback_ok hok).2.2.1, ?_, ?_⟩
  · intro hproc hinit hne
    unfold myCallback
    simp [hproc, hinit, hne]
  · intro now bid s' ev hok
    obtain ⟨-, -, -, -, -, rfl, -⟩ := requestBatchDecryption_ok hok
    simp [Function.update_same]

theorem state_binding_check_witness :
    myCallback csAll 9 5 ctFix 0 sTampered = .error .StateMismatch ∧
    requestBatchDecryption 1 100 1 sPending =
      .ok (sRequested, [.DecryptionRequested 6 1]) ∧
    sRequested.decryptionContexts 6 =
      ⟨1, hashCts (ctsOf rFix) 7, false⟩ := by
  have hokR : requestBatchDecryption 1 100 1 sPending =
      .ok (sRequested, [.DecryptionRequested 6 1]) := rfl
  refine ⟨?_, hokR, ?_⟩
  · exact (state_binding_check csAll 9 5 ctFix 0 sTampered).2.1
      rfl rfl (by decide)
  · exact (state_binding_check csAll 1 5 ctFix 0 sPending).2.2
      100 1 sRequested [.DecryptionRequested 6 1] hokR

/-- C3: an accepted submission first seeds all four accumulators of the
current batch with encrypted zero when they do not yet exist, then adds
`totalValue` to the value-sum, `riskPreference` to the risk-sum, and
the homomorphic differences `target1 - current1`, `target2 - current2`
to the two rebalance signals. -/
theorem submit_aggregates_homomorphically (sender : Address) (now : Nat)
    (a : SubmitArgs) (s s' : ContractState) (ev : List Event)
    (hok : submitPortfolioData sender now a s = .ok (s', ev)) :
    (FHE.isInitialized
        (s.batchResults s.currentBatchId).totalValueSumEncrypted = false →
      s'.batchResults s.currentBatchId =
        { totalValueSumEncrypted :=
            FHE.add (FHE.asEuint32 0) a.totalValueEncrypted
          riskPreferenceSumEncrypted :=
            FHE.add (FHE.asEuint32 0) a.riskPreferenceEncrypted
          rebalanceAmount1Encrypted := FHE.add (FHE.asEuint32 0)
            (FHE.sub a.targetAllocation1Encrypted
              a.currentAllocation1Encrypted)
          rebalanceAmount2Encrypted := FHE.add (FHE.asEuint32 0)
            (FHE.sub a.targetAllocation2Encrypted
              a.currentAllocation2Encrypted) }) ∧
    (FHE.isInitialized
        (s.batchResults s.currentBatchId).totalValueSumEncrypted = true →
      s'.batchResults s.currentBatchId =
        { totalValueSumEncrypted :=
            FHE.add (s.batchResults s.currentBatchId).totalValueSumEncrypted
              a.totalValueEncrypted
          riskPreferenceSumEncrypted :=
            FHE.add
              (s.batchResults s.currentBatchId).riskPreferenceSumEncrypted
              a.riskPreferenceEncrypted
          rebalanceAmount1Encrypted :=
            FHE.add
              (s.batchResults s.currentBatchId).rebalanceAmount1Encrypted
              (FHE.sub a.targetAllocation1Encrypted
                a.currentAllocation1Encrypted)
          rebalanceAmount2Encrypted :=
            FHE.add
              (s.batchResults s.currentBatchId).rebalanceAmount2Encrypted
              (FHE.sub a.targetAllocation2Encrypted
                a.currentAllocation2Encrypted) }) := by
  obtain ⟨-, -, -, -, rfl, -⟩ := submitPortfolioData_ok hok
  constructor
  · intro huninit
    simp [Function.update_same, aggStep, aggInit, aggApply, huninit]
  · intro hinit
    simp [Function.update_same, aggStep, aggInit, aggApply, hinit]

theorem submit_aggregates_homomorphically_witness :
    submitPortfolioData 1 100 aFix sOpen =
      .ok ({ sOpen with
          lastSubmissionTime :=
            Function.update sOpen.lastSubmissionTime 1 100
          userStates := Function.update sOpen.userStates 1
            ⟨.val 100, .val 3, .val 50, .val 50, .val 40, .val 60⟩
          batchResults := Function.update sOpen.batchResults 1
            (aggStep (sOpen.batchResults 1) aFix) },
        [.PortfolioDataSubmitted 1 1]) ∧
    FHE.isInitialized
      (sOpen.batchResults 1).totalValueSumEncrypted = false ∧
    ({ sOpen with
        lastSubmissionTime := Function.update sOpen.lastSubmissionTime 1 100
        userStates := Function.update sOpen.userStates 1
          ⟨.val 100, .val 3, .val 50, .val 50, .val 40, .val 60⟩
        batchResults := Function.update sOpen.batchResults 1
          (aggStep (sOpen.batchResults 1) aFix) } :
        ContractState).batchResults 1 =
      { totalValueSumEncrypted := FHE.add (FHE.asEuint32 0)
          aFix.totalValueEncrypted
        riskPreferenceSumEncrypted := FHE.add (FHE.asEuint32 0)
          aFix.riskPreferenceEncrypted
        rebalanceAmount1Encrypted := FHE.add (FHE.asEuint32 0)
          (FHE.sub aFix.targetAllocation1Encrypted
            aFix.currentAllocation1Encrypted)
        rebalanceAmount2Encrypted := FHE.add (FHE.asEuint32 0)
          (FHE.sub aFix.targetAllocation2Encrypted
            aFix.currentAllocation2Encrypted) } := by
  have hok : submitPortfolioData 1 100 aFix sOpen =
      .ok ({ sOpen with
          lastSubmissionTime :=
            Function.update sOpen.lastSubmissionTime 1 100
          userStates := Function.update sOpen.userStates 1
            ⟨.val 100, .val 3, .val 50, .val 50, .val 40, .val 60⟩
          batchResults := Function.update sOpen.batchResults 1
            (aggStep (sOpen.batchResults 1) aFix) },
        [.PortfolioDataSubmitted 1 1]) := rfl
  exact ⟨hok, rfl,
    (submit_aggregates_homomorphically 1 100 aFix sOpen _ _ hok).1 rfl⟩

/-- C4: once `closeCurrentBatch` succeeds for the current batch R, in
every state reachable by further successful calls R remains closed and
R's aggregates are exactly what they were at closing time; a submission
attempted while the current batch is (still) R fails with
`BatchClosedOrInvalid` once its role/pause/cooldown gates pass —
and, the call reverting, it leaves every aggregate unchanged. -/
theorem closed_batch_is_terminal (sender : Address)
    (s s₁ s₂ : ContractState) (ev : List Event)
    (hok : closeCurrentBatch sender s = .ok (s₁, ev))
    (hreach : Reachable s₁ s₂) :
    s₂.batchClosed s.currentBatchId = true ∧
    s₂.batchResults s.currentBatchId = s₁.batchResults s.currentBatchId ∧
    ∀ p now a, s₂.providers p = true → s₂.paused = false →
      s₂.lastSubmissionTime p + s₂.cooldownSeconds ≤ now →
      s₂.currentBatchId = s.currentBatchId →
      submitPortfolioData p now a s₂ = .error .BatchClosedOrInvalid := by
  obtain ⟨-, -, -, -, hs₁, -⟩ := closeCurrentBatch_ok hok
  have hcl₁ : s₁.batchClosed s.currentBatchId = true := by
    rw [hs₁]; simp [Function.update_same]
  obtain ⟨hcl₂, hres₂⟩ := reach_preserves_closed hreach hcl₁
  refine ⟨hcl₂, hres₂, fun p now a hp hpause hcool hcur => ?_⟩
  unfold submitPortfolioData
  simp [hp, hpause, Nat.not_lt.mpr hcool, hcur, hcl₂]

theorem closed_batch_is_terminal_witness :
    closeCurrentBatch 1 sOpen = .ok (sClosed, [.BatchClosed 1]) ∧
    sClosed.batchClosed 1 = true ∧
    sOpen.providers 1 = true ∧
    submitPortfolioData 1 100 aFix sClosed =
      .error .BatchClosedOrInvalid := by
  have hok : closeCurrentBatch 1 sOpen = .ok (sClosed, [.BatchClosed 1]) :=
    rfl
  have h := closed_batch_is_terminal 1 sOpen sClosed sClosed
    [.BatchClosed 1] hok .refl
  exact ⟨hok, h.1, rfl, h.2.2 1 100 aFix rfl rfl (by decide) rfl⟩

/-- C5: with the earlier gates of each function passing, a submission
(resp. decryption request) fails with `CooldownActive` exactly when
`now < lastTime + cooldownSeconds` for the caller's own per-address
timestamp, and each successful call stamps only its own timestamp map,
leaving the other untouched. -/
theorem cooldown_gates_independently (p : Address) (now : Nat)
    (a : SubmitArgs) (bid : Nat) (s : ContractState) :
    (s.providers p = true → s.paused = false →
      ((submitPortfolioData p now a s = .error .CooldownActive) ↔
        now < s.lastSubmissionTime p + s.cooldownSeconds)) ∧
    (p = s.owner → s.paused = false → s.batchClosed bid = true →
      ((requestBatchDecryption p now bid s = .error .CooldownActive) ↔
        now < s.lastDecryptionRequestTime p + s.cooldownSeconds)) ∧
    (∀ s' ev, submitPortfolioData p now a s = .ok (s', ev) →
      s'.lastSubmissionTime p = now ∧
      s'.lastDecryptionRequestTime = s.lastDecryptionRequestTime) ∧
    (∀ s' ev, requestBatchDecryption p now bid s = .ok (s', ev) →
      s'.lastDecryptionRequestTime p = now ∧
      s'.lastSubmissionTime = s.lastSubmissionTime) := by
  refine ⟨?_, ?_, ?_, ?_⟩
  · intro hp hpause
    unfold submitPortfolioData
    simp only [hp, hpause]
    split_ifs with h1 h2 <;> simp_all
  · intro hown hpause hclosed
    unfold requestBatchDecryption
    simp only [← hown, hpause, hclosed]
    split_ifs with h1 h2 h3 <;> simp_all
  · intro s' ev hok
    obtain ⟨-, -, -, -, rfl, -⟩ := submitPortfolioData_ok hok
    exact ⟨Function.update_same p now s.lastSubmissionTime, rfl⟩
  · intro s' ev hok
    obtain ⟨-, -, -, -, -, rfl, -⟩ := requestBatchDecryption_ok hok
    exact ⟨Function.update_same p now s.lastDecryptionRequestTime, rfl⟩

theorem cooldown_gates_independently_witness :
    sOpen.providers 1 = true ∧
    submitPortfolioData 1 30 aFix sOpen = .error .CooldownActive ∧
    sPending.batchClosed 1 = true ∧
    requestBatchDecryption 1 30 1 sPending = .error .CooldownActive := by
  refine ⟨rfl, ?_, rfl, ?_⟩
  · exact ((cooldown_gates_independently 1 30 aFix 1 sOpen).1
      rfl rfl).mpr (by norm_num [sOpen, constructorState])
  · exact ((cooldown_gates_independently 1 30 aFix 1 sPending).2.1
      rfl rfl rfl).mpr (by norm_num [sPending])

/-- C6: with the stored context unprocessed, a failing `myCallback` can
only fail past the replay guard (initialization, state-binding or proof
check) and, reverting, commits nothing: the post-call state is the
pre-call state with the context untouched and `processed` still false;
a corrected later callback for the same request id — cleartexts and
proof the oracle attests, state binding intact — succeeds. -/
theorem callback_failure_commits_nothing
    (cs : Nat → Cleartexts → Nat → Bool) (sender : Address) (id : Nat)
    (ct : Cleartexts) (pf : Nat) (s : ContractState)
    (hproc : (s.decryptionContexts id).processed = false) :
    (∀ e, myCallback cs sender id ct pf s = .error e →
      e ≠ .ReplayAttempt ∧
      resultState s (myCallback cs sender id ct pf s) = s ∧
      ((resultState s
        (myCallback cs sender id ct pf s)).decryptionContexts
          id).processed = false) ∧
    (∀ cs' ct' pf',
      FHE.isInitialized (s.batchResults
        (s.decryptionContexts id).batchId).totalValueSumEncrypted = true →
      hashCts (ctsOf (s.batchResults (s.decryptionContexts id).batchId))
        s.selfAddr = (s.decryptionContexts id).stateHash →
      cs' id ct' pf' = true →
      myCallback cs' sender id ct' pf' s =
        .ok ({ s with
            decryptionContexts := Function.update s.decryptionContexts id
              { s.decryptionContexts id with processed := true } },
          [.DecryptionCompleted id (s.decryptionContexts id).batchId
            ct'.w0 ct'.w1 ct'.w2 ct'.w3])) := by
  constructor
  · intro e he
    refine ⟨?_, by rw [he]; rfl, by rw [he]; exact hproc⟩
    unfold myCallback at he
    simp only [hproc, Bool.false_eq_true, if_false] at he
    split_ifs at he with h1 h2 h3 <;> simp_all
    all_goals subst he
    all_goals decide
  · intro cs' ct' pf' hinit hhash hsig
    unfold myCallback
    simp [hproc, hinit, hhash, hsig]

theorem callback_failure_commits_nothing_witness :
    myCallback csNone 9 5 ctFix 0 sPending = .error .InvalidProof ∧
    Err.InvalidProof ≠ Err.ReplayAttempt ∧
    resultState sPending (myCallback csNone 9 5 ctFix 0 sPending) =
      sPending ∧
    myCallback csAll 9 5 ctFix 0 sPending =
      .ok (sPendingDone, [.DecryptionCompleted 5 1 100 3 10 5]) := by
  have hf : myCallback csNone 9 5 ctFix 0 sPending =
      .error .InvalidProof := rfl
  have h := callback_failure_commits_nothing csNone 9 5 ctFix 0 sPending rfl
  have h2 := (callback_failure_commits_nothing csAll 9 5 ctFix 0 sPending
    rfl).2 csAll ctFix 0 rfl rfl rfl
  exact ⟨hf, (h.1 .InvalidProof hf).1, (h.1 .InvalidProof hf).2.1, h2⟩

/-- C7 fails on the code: `myCallback` is a public function with no
modifier and it never reads `msg.sender`, so it is not restricted to an
oracle identity.  Two distinct callers — at most one of which can be
the trusted oracle — both invoke it successfully from the same state,
with identical state change and published result. -/
theorem callback_unrestricted_caller_counterexample :
    myCallback csAll 3 5 ctFix 0 sPending =
      .ok (sPendingDone, [.DecryptionCompleted 5 1 100 3 10 5]) ∧
    myCallback csAll 4 5 ctFix 0 sPending =
      .ok (sPendingDone, [.DecryptionCompleted 5 1 100 3 10 5]) ∧
    (3 : Address) ≠ 4 :=
  ⟨rfl, rfl, by decide⟩

/-- C7 amended: `myCallback`'s outcome is independent of the caller —
any address may invoke it; authorization rests on the attestation
check: when the earlier guards pass but `checkSignatures` rejects the
payload, the call reverts with `InvalidProof`, whoever the caller. -/
theorem callback_caller_independent
    (cs : Nat → Cleartexts → Nat → Bool) (sender sender' : Address)
    (id : Nat) (ct : Cleartexts) (pf : Nat) (s : ContractState) :
    myCallback cs sender id ct pf s = myCallback cs sender' id ct pf s ∧
    ((s.decryptionContexts id).processed = false →
      FHE.isInitialized (s.batchResults
        (s.decryptionContexts id).batchId).totalValueSumEncrypted = true →
      hashCts (ctsOf (s.batchResults (s.decryptionContexts id).batchId))
        s.selfAddr = (s.decryptionContexts id).stateHash →
      cs id ct pf = false →
      myCallback cs sender id ct pf s = .error .InvalidProof) := by
  refine ⟨rfl, fun hproc hinit hhash hsig => ?_⟩
  unfold myCallback
  simp [hproc, hinit, hhash, hsig]

theorem callback_caller_independent_witness :
    myCallback csNone 3 5 ctFix 0 sPending =
      myCallback csNone 4 5 ctFix 0 sPending ∧
    myCallback csNone 3 5 ctFix 0 sPending = .error .InvalidProof := by
  have h := callback_caller_independent csNone 3 4 5 ctFix 0 sPending
  exact ⟨h.1, h.2 rfl rfl rfl rfl⟩

/-- C8 fails on the code: `addProvider` emits `ProviderAdded(provider)`
carrying only the address — the identical event whether the flag was
previously false or already true — so the notification cannot carry
the before value of the mutated field (`removeProvider` and
`setPaused` likewise emit no old → new pair). -/
theorem admin_event_payload_counterexample :
    addProvider 1 2 sOpen = .ok (sProv, [.ProviderAdded 2]) ∧
    addProvider 1 2 sProv = .ok (sProv2, [.ProviderAdded 2]) ∧
    sOpen.providers 2 = false ∧ sProv.providers 2 = true :=
  ⟨rfl, rfl, rfl, rfl⟩

/-- C8 amended: each administration mutation is owner-gated and, called
by the owner, succeeds and emits exactly one audit event;
`transferOwnership` and `setCooldownSeconds` carry the old and the new
value, while `addProvider`/`removeProvider` carry only the affected
address and `setPaused` only the caller. -/
theorem admin_mutations_owner_gated_events (s : ContractState)
    (x : Address) (n : Nat) (p : Bool) (sender : Address)
    (hown : sender = s.owner) :
    transferOwnership sender x s =
      .ok ({ s with owner := x }, [.OwnershipTransferred s.owner x]) ∧
    addProvider sender x s =
      .ok ({ s with providers := Function.update s.providers x true },
        [.ProviderAdded x]) ∧
    removeProvider sender x s =
      .ok ({ s with providers := Function.update s.providers x false },
        [.ProviderRemoved x]) ∧
    setPaused sender p s =
      .ok ({ s with paused := p },
        if p then [.ContractPaused sender]
        else [.ContractUnpaused sender]) ∧
    setCooldownSeconds sender n s =
      .ok ({ s with cooldownSeconds := n },
        [.CooldownSecondsSet s.cooldownSeconds n]) := by
  subst hown
  refine ⟨?_, ?_, ?_, ?_, ?_⟩
  · unfold transferOwnership; simp
  · unfold addProvider; simp
  · unfold removeProvider; simp
  · unfold setPaused; cases p <;> simp
  · unfold setCooldownSeconds; simp

theorem admin_mutations_owner_gated_events_witness :
    (1 : Address) = sOpen.owner ∧
    setCooldownSeconds 1 120 sOpen =
      .ok ({ sOpen with cooldownSeconds := 120 },
        [.CooldownSecondsSet 60 120]) ∧
    transferOwnership 1 2 sOpen =
      .ok ({ sOpen with owner := 2 }, [.OwnershipTransferred 1 2]) := by
  have h := admin_mutations_owner_gated_events sOpen 2 120 true 1 rfl
  exact ⟨rfl, h.2.2.2.2, h.1⟩

/-- C9: folding any finite list of accepted submissions into a batch's
accumulators is invariant under permuting the submissions (the
ciphertext addition is commutative and associative), even though each
submission's allocation differences are computed individually; and an
accepted `submitPortfolioData` call folds exactly one `aggStep` into
the current batch's accumulators. -/
theorem aggregation_order_invariant (l₁ l₂ : List SubmitArgs)
    (r : BatchAggregatedResults) (hp : l₁.Perm l₂) :
    l₁.foldl aggStep r = l₂.foldl aggStep r ∧
    ∀ sender now a (s s' : ContractState) ev,
      submitPortfolioData sender now a s = .ok (s', ev) →
      s'.batchResults s.currentBatchId =
        aggStep (s.batchResults s.currentBatchId) a := by
  refine ⟨foldl_aggStep_perm hp r, fun sender now a s s' ev hok => ?_⟩
  obtain ⟨-, -, -, -, rfl, -⟩ := submitPortfolioData_ok hok
  simp [Function.update_same]

theorem aggregation_order_invariant_witness :
    [aFix, bFix, cFix].Perm [cFix, aFix, bFix] ∧
    [aFix, bFix, cFix].foldl aggStep BatchAggregatedResults.def0 =
      [cFix, aFix, bFix].foldl aggStep BatchAggregatedResults.def0 := by
  have hp : [aFix, bFix, cFix].Perm [cFix, aFix, bFix] :=
    ((List.Perm.swap cFix bFix []).cons aFix).trans
      (List.Perm.swap cFix aFix [bFix])
  exact ⟨hp,
    (aggregation_order_invariant _ _ BatchAggregatedResults.def0 hp).1⟩

/-- C10: a successful `transferOwnership` changes only the owner field;
the provider set and all other storage are untouched, so the previous
owner keeps the Provider role and the new owner does not gain it — an
owner is enrolled as provider only by the constructor — and a new
owner outside the provider set cannot submit portfolio data until
separately added. -/
theorem transfer_ownership_frame (sender newOwner d self : Address)
    (s s' : ContractState) (ev : List Event)
    (hok : transferOwnership sender newOwner s = .ok (s', ev)) :
    s'.owner = newOwner ∧
    s'.providers = s.providers ∧
    s'.paused = s.paused ∧
    s'.cooldownSeconds = s.cooldownSeconds ∧
    s'.lastSubmissionTime = s.lastSubmissionTime ∧
    s'.lastDecryptionRequestTime = s.lastDecryptionRequestTime ∧
    s'.currentBatchId = s.currentBatchId ∧
    s'.batchClosed = s.batchClosed ∧
    s'.decryptionContexts = s.decryptionContexts ∧
    s'.userStates = s.userStates ∧
    s'.batchResults = s.batchResults ∧
    s'.fheNextRequestId = s.fheNextRequestId ∧
    (constructorState d self).providers d = true ∧
    (∀ now a, s'.providers newOwner = false →
      submitPortfolioData newOwner now a s' = .error .NotProvider) := by
  obtain ⟨-, rfl, -⟩ := transferOwnership_ok hok
  refine ⟨rfl, rfl, rfl, rfl, rfl, rfl, rfl, rfl, rfl, rfl, rfl, rfl,
    ?_, ?_⟩
  · simp [constructorState, Function.update_same]
  · intro now a hnp
    dsimp only at hnp
    unfold submitPortfolioData
    simp [hnp]

theorem transfer_ownership_frame_witness :
    transferOwnership 1 2 sOpen =
      .ok ({ sOpen with owner := 2 }, [.OwnershipTransferred 1 2]) ∧
    ({ sOpen with owner := 2 } : ContractState).providers 2 = false ∧
    submitPortfolioData 2 100 aFix { sOpen with owner := 2 } =
      .error .NotProvider := by
  have hok : transferOwnership 1 2 sOpen =
      .ok ({ sOpen with owner := 2 }, [.OwnershipTransferred 1 2]) := rfl
  obtain ⟨-, -, -, -, -, -, -, -, -, -, -, -, -, hsub⟩ :=
    transfer_ownership_frame 1 2 1 7 sOpen _ _ hok
  exact ⟨hok, rfl, hsub 100 aFix rfl⟩

end DeFiAgentFHE
